import Mathlib

/-!
Shallow embedding of the role-craft-guard authorization matrix core:
the Permission data model, the resolver (`getPermission` and the
default-deny fallbacks used at every consumption site), the mutator
(`updatePermission` upsert), the access-policy gate (`is_admin` /
`can_edit` over role-name strings), the matrix projection
(`filteredActions`) and the CSV export (`exportToCSV`), translated from
`src/components/AuthorizationMatrixView.tsx` and
`src/components/SupabaseAuthorizationMatrix.tsx`.
-/

namespace RoleCraft

/-- `status ∈ {granted, denied, conditional}` — the `permission_status`
enum of the `permissions` table and the TS union type
`'granted' | 'denied' | 'conditional'`. -/
inductive PermStatus
  | granted
  | denied
  | conditional
deriving DecidableEq, Repr

/-- The string each status renders as in TS (`p.status` is a string
literal there). -/
def PermStatus.toStr : PermStatus → String
  | .granted => "granted"
  | .denied => "denied"
  | .conditional => "conditional"

/-- `DatabaseRole` from `AuthorizationMatrixView.tsx`. -/
structure Role where
  id : String
  name : String
  description : String
  color : String
  is_system_role : Bool
deriving DecidableEq, Repr

/-- `DatabaseAction` from `AuthorizationMatrixView.tsx`. -/
structure MatrixAction where
  id : String
  name : String
  description : String
  category : String
deriving DecidableEq, Repr

/-- `DatabasePermission` from `AuthorizationMatrixView.tsx`:
`limit_value?: number` and `conditions?: string` are optional fields. -/
structure Permission where
  id : String
  role_id : String
  action_id : String
  status : PermStatus
  limit_value : Option Int
  conditions : Option String
deriving DecidableEq, Repr

/-- The predicate of `permissions.find(p => p.role_id === roleId &&
p.action_id === actionId)`. -/
def matchesPair (roleId actionId : String) (p : Permission) : Bool :=
  p.role_id == roleId && p.action_id == actionId

/-- `getPermission` from both `AuthorizationMatrixView.tsx` (lines 57-59)
and `SupabaseAuthorizationMatrix.tsx` (lines 104-106):
`permissions.find(p => p.role_id === roleId && p.action_id === actionId)`.
JS `Array.prototype.find` returns the first element in list order
satisfying the predicate, or `undefined`. -/
def getPermission (permissions : List Permission) (roleId actionId : String) :
    Option Permission :=
  permissions.find? (matchesPair roleId actionId)

/-- The effective permission triple for one (role, action) cell. -/
structure Resolved where
  status : PermStatus
  limit_value : Option Int
  conditions : Option String
deriving DecidableEq, Repr

/-- Resolution as consumed at every site: `permission?.status || 'denied'`
(toggle handler line 216, CSV line 71, `getStatusBadge` lines 99-101 map a
missing row to the Denied badge), `permission?.limit_value` and
`permission?.conditions` (`undefined`, i.e. `none`, when the row is
absent). -/
def resolve (permissions : List Permission) (roleId actionId : String) :
    Resolved :=
  match getPermission permissions roleId actionId with
  | some p => ⟨p.status, p.limit_value, p.conditions⟩
  | none => ⟨.denied, none, none⟩

/-- The status component alone: `permission?.status || 'denied'`. -/
def resolveStatus (permissions : List Permission) (roleId actionId : String) :
    PermStatus :=
  (resolve permissions roleId actionId).status

/-! ### Permission mutator (`updatePermission`, SupabaseAuthorizationMatrix.tsx 108-140) -/

/-- The update branch of `updatePermission`:
`supabase.from('permissions').update({ status }).eq('id', existingPermission.id)`
— a patch of the single field `status` applied to every row whose `id`
matches (SQL `UPDATE ... WHERE id = ...`); all other fields are left as
they were. -/
def updateStatusById (permissions : List Permission) (pid : String)
    (status : PermStatus) : List Permission :=
  permissions.map fun p => if p.id == pid then { p with status := status } else p

/-- `updatePermission(roleId, actionId, status)` from
`SupabaseAuthorizationMatrix.tsx` lines 108-140, acting on the permission
table: look up the existing row via `getPermission`; if present, update
its `status` in place by id; if absent, insert
`{ role_id: roleId, action_id: actionId, status }` — the store generates
the fresh row id (`newId` here) and leaves `limit_value`/`conditions`
null. -/
def setPermission (permissions : List Permission) (newId roleId actionId : String)
    (status : PermStatus) : List Permission :=
  match getPermission permissions roleId actionId with
  | some existingPermission => updateStatusById permissions existingPermission.id status
  | none => permissions ++ [⟨newId, roleId, actionId, status, none, none⟩]

/-- Number of permission rows for one (role_id, action_id) pair. -/
def pairCount (permissions : List Permission) (roleId actionId : String) : Nat :=
  (permissions.filter (matchesPair roleId actionId)).length

/-- The central uniqueness invariant: at most one Permission row per
(role_id, action_id) pair (the `UNIQUE(role_id, action_id)` constraint of
the `permissions` table). -/
def atMostOnePerPair (permissions : List Permission) : Prop :=
  ∀ roleId actionId, pairCount permissions roleId actionId ≤ 1

/-! ### Toggle cycle (AuthorizationMatrixView.tsx 214-224) -/

/-- The cell-click successor:
`currentStatus === 'denied' ? 'granted' : currentStatus === 'granted' ? 'conditional' : 'denied'`. -/
def nextStatus : PermStatus → PermStatus
  | .denied => .granted
  | .granted => .conditional
  | .conditional => .denied

/-- One click on the (role, action) cell in edit mode: the handler reads
`currentStatus = permission?.status || 'denied'`, computes `nextStatus`,
and calls `onPermissionUpdate` = `updatePermission`, whose new state the
view observes after `loadData()`. -/
def clickCell (permissions : List Permission) (newId roleId actionId : String) :
    List Permission :=
  setPermission permissions newId roleId actionId
    (nextStatus (resolveStatus permissions roleId actionId))

/-! ### Access policy gate (SupabaseAuthorizationMatrix.tsx 142-143, SQL is_admin / can_edit) -/

/-- `isAdmin = userRole === 'Admin'` (and SQL
`get_user_role(auth.uid()) = 'Admin'`). -/
def is_admin (userRole : String) : Bool :=
  userRole == "Admin"

/-- `canEdit = userRole === 'Edit & View' || userRole === 'Admin'` (and
SQL `get_user_role(auth.uid()) IN ('Edit & View', 'Admin')`). -/
def can_edit (userRole : String) : Bool :=
  userRole == "Edit & View" || userRole == "Admin"

/-- `setUserRole(userRoleRes.data || '')`: a missing role (the SQL
function returns NULL when the profile has no role) is coerced to the
empty string before the gate checks run. -/
def userRoleFromStore (data : Option String) : String :=
  data.getD ""

/-- The three capability levels of the gate. -/
inductive Capability
  | view
  | edit
  | admin
deriving DecidableEq, Repr

/-- The capability level a role name resolves to, assembled from the two
source booleans: admin when `is_admin`, else edit when `can_edit`, else
view-only. -/
def capability_of (userRole : String) : Capability :=
  if is_admin userRole then .admin
  else if can_edit userRole then .edit
  else .view

/-- The permitted-operation set of a capability level, as a membership
test: view-only users may only view; `canEdit` gates the Permission
Mutator; `isAdmin` additionally gates the admin panel (user creation and
role reassignment). -/
def capAllows : Capability → Capability → Bool
  | _, .view => true
  | .edit, .edit => true
  | .admin, .edit => true
  | .admin, .admin => true
  | _, _ => false

/-! ### Matrix projection (AuthorizationMatrixView.tsx 116-121) -/

/-- `toLowerCase` on one code point (ASCII range, as `Char.toLower` /
the letters occurring in the catalog): map A-Z to a-z, leave the rest. -/
def lowerCode (n : Nat) : Nat :=
  if 65 ≤ n && n ≤ 90 then n + 32 else n

/-- `s.toLowerCase()` as the list of lower-cased character codes. -/
def lowerCodes (s : String) : List Nat :=
  s.data.map fun c => lowerCode c.toNat

/-- `needle` is a prefix of `hay`, code point by code point. -/
def isPrefixCodes : List Nat → List Nat → Bool
  | [], _ => true
  | _ :: _, [] => false
  | c :: cs, d :: ds => c == d && isPrefixCodes cs ds

/-- `needle` occurs contiguously somewhere in `hay`. -/
def hasSubCodes (needle : List Nat) : List Nat → Bool
  | [] => isPrefixCodes needle []
  | c :: cs => isPrefixCodes needle (c :: cs) || hasSubCodes needle cs

/-- JS `hay.toLowerCase().includes(needle.toLowerCase())`:
case-insensitive contiguous-substring test (true for the empty
needle). -/
def strIncludesCI (hay needle : String) : Bool :=
  hasSubCodes (lowerCodes needle) (lowerCodes hay)

/-- `filteredActions` from `AuthorizationMatrixView.tsx` lines 116-121:
keep an action when
`(selectedCategory === 'all' || action.category === selectedCategory)`
and the lower-cased search term occurs in the lower-cased name or
description. -/
def filteredActions (actions : List MatrixAction)
    (selectedCategory searchTerm : String) : List MatrixAction :=
  actions.filter fun action =>
    let matchesCategory := selectedCategory == "all" || action.category == selectedCategory
    let matchesSearch := strIncludesCI action.name searchTerm ||
                         strIncludesCI action.description searchTerm
    matchesCategory && matchesSearch

/-! ### CSV export (AuthorizationMatrixView.tsx 61-97) -/

/-- The header row pushed first:
`['Role', 'Action', 'Status', 'Limit', 'Conditions', 'Category']`. -/
def headerRow : List String :=
  ["Role", "Action", "Status", "Limit", "Conditions", "Category"]

/-- `permission?.status || 'denied'`: the three status strings are
non-empty, hence truthy; only a missing row falls back to `'denied'`. -/
def statusField (perm : Option Permission) : String :=
  match perm with
  | some p => p.status.toStr
  | none => "denied"

/-- `permission?.limit_value || ''` followed by template-string
rendering: a missing row or null limit gives the empty string, and so
does a limit of 0 (JS numeric falsiness); any other integer renders in
decimal. -/
def limitField (perm : Option Permission) : String :=
  match perm with
  | some p =>
    match p.limit_value with
    | some n => if n == 0 then "" else toString n
    | none => ""
  | none => ""

/-- `permission?.conditions || ''`: a missing row or null conditions
gives the empty string (the falsy empty string maps to itself). -/
def conditionsField (perm : Option Permission) : String :=
  match perm with
  | some p =>
    match p.conditions with
    | some c => c
    | none => ""
  | none => ""

/-- One pushed data row: `[role.name, action.name, status-field,
limit-field, conditions-field, action.category]`. -/
def exportRow (role : Role) (action : MatrixAction) (perm : Option Permission) :
    List String :=
  [role.name, action.name, statusField perm, limitField perm,
   conditionsField perm, action.category]

/-- The `csvData` array built by the nested
`roles.forEach(role => actions.forEach(action => ...))` loops, header
first. -/
def csvData (roles : List Role) (actions : List MatrixAction)
    (permissions : List Permission) : List (List String) :=
  headerRow ::
    roles.flatMap fun role =>
      actions.map fun action =>
        exportRow role action (getPermission permissions role.id action.id)

/-- `csvData.map(row => row.map(field => "\x7bfield\x7d" in quotes).join(',')).join('\n')`:
every field, header included, is double-quote-wrapped. -/
def csvContent (rows : List (List String)) : String :=
  String.intercalate "\n"
    (rows.map fun row =>
      String.intercalate "," (row.map fun field => "\"" ++ field ++ "\""))

/-- `exportToCSV`: the full emitted CSV text. The component's
`selectedCategory` and `searchTerm` filter state is in scope but the
function body never reads it — export always walks the full catalog. -/
def exportToCSV (roles : List Role) (actions : List MatrixAction)
    (permissions : List Permission) (_selectedCategory _searchTerm : String) :
    String :=
  csvContent (csvData roles actions permissions)

/-- The data rows of the export (everything after the header), with the
unused filter state still in scope as in the source. -/
def exportDataRows (roles : List Role) (actions : List MatrixAction)
    (permissions : List Permission) (_selectedCategory _searchTerm : String) :
    List (List String) :=
  (csvData roles actions permissions).tail

/-! ### Mutation control flow (SupabaseAuthorizationMatrix.tsx 69-140) -/

/-- A store rejection: constraint violation, connectivity failure, … —
the caller only sees a generic error. -/
inductive StoreError
  | rejected
deriving DecidableEq, Repr

/-- The locally held catalog snapshot (the `roles` / `actions` /
`permissions` React state). -/
structure Catalog where
  roles : List Role
  actions : List MatrixAction
  permissions : List Permission
deriving DecidableEq, Repr

/-- What the user is shown after the operation (the toast). -/
inductive Notice
  | success
  | failure
deriving DecidableEq, Repr

/-- The control flow of `updatePermission` (lines 108-140) around the
store: `try { write; if (error) throw; await loadData(); toast success }
catch { toast failure }`. A rejected write throws before `loadData`, so
the local catalog is untouched and the failure toast fires. On a
successful write, `loadData` re-fetches; `loadData` checks the fetch
errors before any `setState`, so a failed reload also leaves the previous
snapshot in place (and is caught inside `loadData`, so the success toast
still fires). Only a successful write followed by a successful reload
installs the fresh snapshot. -/
def updatePermissionFlow (st : Catalog) (writeResult : Except StoreError Unit)
    (reloadResult : Except StoreError Catalog) : Catalog × Notice :=
  match writeResult with
  | .error _ => (st, .failure)
  | .ok _ =>
    match reloadResult with
    | .error _ => (st, .success)
    | .ok fresh => (fresh, .success)

end RoleCraft

/-! ### Helper lemmas -/

namespace RoleCraft

theorem matchesPair_update (roleId actionId pid : String) (s : PermStatus)
    (p : Permission) :
    matchesPair roleId actionId (if p.id == pid then { p with status := s } else p) =
      matchesPair roleId actionId p := by
  cases h : p.id == pid <;> simp [h, matchesPair]

theorem pairCount_updateStatusById (perms : List Permission) (pid : String)
    (s : PermStatus) (roleId actionId : String) :
    pairCount (updateStatusById perms pid s) roleId actionId =
      pairCount perms roleId actionId := by
  unfold pairCount updateStatusById
  rw [List.filter_map, List.length_map]
  congr 1
  apply List.filter_congr
  intro p _
  simpa using matchesPair_update roleId actionId pid s p

theorem pairCount_append_single (perms : List Permission) (row : Permission)
    (roleId actionId : String) :
    pairCount (perms ++ [row]) roleId actionId =
      pairCount perms roleId actionId +
        (if matchesPair roleId actionId row then 1 else 0) := by
  unfold pairCount
  rw [List.filter_append]
  cases h : matchesPair roleId actionId row <;> simp [h, List.filter_cons]

theorem getPermission_eq_none_iff (perms : List Permission) (roleId actionId : String) :
    getPermission perms roleId actionId = none ↔
      ∀ p ∈ perms, matchesPair roleId actionId p = false := by
  unfold getPermission
  rw [List.find?_eq_none]
  simp

theorem pairCount_eq_zero_of_none (perms : List Permission) (roleId actionId : String)
    (h : getPermission perms roleId actionId = none) :
    pairCount perms roleId actionId = 0 := by
  rw [getPermission_eq_none_iff] at h
  unfold pairCount
  simp only [List.length_eq_zero]
  exact List.filter_eq_nil_iff.mpr (by simpa using h)

theorem getPermission_isSome_of_pairCount_pos (perms : List Permission)
    (roleId actionId : String) (h : 0 < pairCount perms roleId actionId) :
    ∃ p, getPermission perms roleId actionId = some p := by
  cases hg : getPermission perms roleId actionId with
  | some p => exact ⟨p, rfl⟩
  | none => rw [pairCount_eq_zero_of_none perms roleId actionId hg] at h; omega

theorem pairCount_pos_of_some (perms : List Permission) (roleId actionId : String)
    (p : Permission) (h : getPermission perms roleId actionId = some p) :
    0 < pairCount perms roleId actionId := by
  unfold getPermission at h
  have hmem : p ∈ perms := List.mem_of_find?_eq_some h
  have hp : matchesPair roleId actionId p = true := List.find?_some h
  unfold pairCount
  have : p ∈ perms.filter (matchesPair roleId actionId) :=
    List.mem_filter.mpr ⟨hmem, hp⟩
  exact List.length_pos.mpr (List.ne_nil_of_mem this)

end RoleCraft

namespace RoleCraft

theorem getPermission_updateStatusById (perms : List Permission)
    (roleId actionId : String) (p : Permission) (s : PermStatus)
    (h : getPermission perms roleId actionId = some p) :
    getPermission (updateStatusById perms p.id s) roleId actionId =
      some { p with status := s } := by
  induction perms with
  | nil => simp [getPermission] at h
  | cons q t ih =>
    unfold getPermission at h ⊢
    unfold updateStatusById
    simp only [List.map_cons]
    cases hm : matchesPair roleId actionId q with
    | true =>
      rw [List.find?_cons_of_pos _ hm] at h
      have hq : q = p := by injection h
      subst hq
      have hid : (q.id == q.id) = true := by simp
      rw [hid]
      simp only [if_true]
      exact List.find?_cons_of_pos _ (by simpa [matchesPair] using hm)
    | false =>
      rw [List.find?_cons_of_neg _ (by simp [hm])] at h
      rw [List.find?_cons_of_neg _
        (by simpa [hm] using matchesPair_update roleId actionId p.id s q)]
      exact ih h

theorem getPermission_append_missing (perms : List Permission)
    (roleId actionId newId : String) (s : PermStatus)
    (h : getPermission perms roleId actionId = none) :
    getPermission (perms ++ [⟨newId, roleId, actionId, s, none, none⟩])
        roleId actionId =
      some ⟨newId, roleId, actionId, s, none, none⟩ := by
  unfold getPermission at h ⊢
  rw [List.find?_append, h]
  simp [matchesPair]

theorem getPermission_setPermission_found (perms : List Permission)
    (newId roleId actionId : String) (s : PermStatus) (p : Permission)
    (h : getPermission perms roleId actionId = some p) :
    getPermission (setPermission perms newId roleId actionId s) roleId actionId =
      some { p with status := s } := by
  unfold setPermission
  rw [h]
  exact getPermission_updateStatusById perms roleId actionId p s h

theorem getPermission_setPermission_missing (perms : List Permission)
    (newId roleId actionId : String) (s : PermStatus)
    (h : getPermission perms roleId actionId = none) :
    getPermission (setPermission perms newId roleId actionId s) roleId actionId =
      some ⟨newId, roleId, actionId, s, none, none⟩ := by
  unfold setPermission
  rw [h]
  exact getPermission_append_missing perms roleId actionId newId s h

theorem resolveStatus_setPermission (perms : List Permission)
    (newId roleId actionId : String) (s : PermStatus) :
    resolveStatus (setPermission perms newId roleId actionId s) roleId actionId = s := by
  cases h : getPermission perms roleId actionId with
  | some p =>
    unfold resolveStatus resolve
    rw [getPermission_setPermission_found perms newId roleId actionId s p h]
  | none =>
    unfold resolveStatus resolve
    rw [getPermission_setPermission_missing perms newId roleId actionId s h]

end RoleCraft

namespace RoleCraft

theorem setPermission_preserves_atMostOne (perms : List Permission)
    (newId roleId actionId : String) (s : PermStatus)
    (h : atMostOnePerPair perms) :
    atMostOnePerPair (setPermission perms newId roleId actionId s) := by
  intro r a
  cases hg : getPermission perms roleId actionId with
  | some p =>
    unfold setPermission
    rw [hg, pairCount_updateStatusById]
    exact h r a
  | none =>
    unfold setPermission
    rw [hg, pairCount_append_single]
    cases hm : matchesPair r a ⟨newId, roleId, actionId, s, none, none⟩ with
    | false => simpa using h r a
    | true =>
      obtain ⟨hr, ha⟩ : roleId = r ∧ actionId = a := by
        simpa [matchesPair] using hm
      subst hr
      subst ha
      rw [pairCount_eq_zero_of_none perms roleId actionId hg]
      simp

theorem pairCount_setPermission_self (perms : List Permission)
    (newId roleId actionId : String) (s : PermStatus)
    (h : atMostOnePerPair perms) :
    pairCount (setPermission perms newId roleId actionId s) roleId actionId = 1 := by
  cases hg : getPermission perms roleId actionId with
  | some p =>
    unfold setPermission
    rw [hg, pairCount_updateStatusById]
    have h1 := h roleId actionId
    have h2 := pairCount_pos_of_some perms roleId actionId p hg
    omega
  | none =>
    unfold setPermission
    rw [hg, pairCount_append_single, pairCount_eq_zero_of_none perms roleId actionId hg]
    simp [matchesPair]

theorem resolveStatus_clickCell (perms : List Permission)
    (newId roleId actionId : String) :
    resolveStatus (clickCell perms newId roleId actionId) roleId actionId =
      nextStatus (resolveStatus perms roleId actionId) := by
  unfold clickCell
  exact resolveStatus_setPermission perms newId roleId actionId _

end RoleCraft

namespace RoleCraft

theorem atMostOnePerPair_singleton (row : Permission) : atMostOnePerPair [row] := by
  intro roleId actionId
  unfold pairCount
  cases h : matchesPair roleId actionId row <;> simp [List.filter, h]

/-- C10: resolution is first-match and deterministic — `getPermission`
(a pure function of the permission list) equals the head of the sublist
of rows matching (role_id, action_id) in list order, so when several rows
exist for the same pair all but the earliest are ignored. -/
theorem C10_resolution_first_match (perms : List Permission)
    (roleId actionId : String) :
    getPermission perms roleId actionId =
      (perms.filter (matchesPair roleId actionId)).head? :=
  (List.filter_head? (matchesPair roleId actionId) perms).symm

/-- C1: resolution is default-deny and verbatim — when no row of the
permission list matches (role_id, action_id), `resolve` returns status
denied with no limit_value and no conditions; when a matching row exists
(under the at-most-one-row-per-pair invariant), `resolve` returns that
row's status, limit_value and conditions verbatim. -/
theorem C1_resolution_default_deny_and_verbatim (perms : List Permission)
    (roleId actionId : String) :
    ((∀ p ∈ perms, matchesPair roleId actionId p = false) →
      resolve perms roleId actionId = ⟨.denied, none, none⟩)
    ∧ (∀ q ∈ perms, matchesPair roleId actionId q = true →
        atMostOnePerPair perms →
        resolve perms roleId actionId = ⟨q.status, q.limit_value, q.conditions⟩) := by
  constructor
  · intro h
    unfold resolve
    rw [(getPermission_eq_none_iff perms roleId actionId).mpr h]
  · intro q hq hmatch hinv
    have hqmem : q ∈ perms.filter (matchesPair roleId actionId) :=
      List.mem_filter.mpr ⟨hq, hmatch⟩
    have hpos : 0 < pairCount perms roleId actionId := by
      unfold pairCount
      exact List.length_pos.mpr (List.ne_nil_of_mem hqmem)
    obtain ⟨p0, hp0⟩ := getPermission_isSome_of_pairCount_pos perms roleId actionId hpos
    have hp0find : perms.find? (matchesPair roleId actionId) = some p0 := hp0
    have hp0mem : p0 ∈ perms.filter (matchesPair roleId actionId) :=
      List.mem_filter.mpr
        ⟨List.mem_of_find?_eq_some hp0find, List.find?_some hp0find⟩
    have hlen : (perms.filter (matchesPair roleId actionId)).length ≤ 1 :=
      hinv roleId actionId
    have hpq : p0 = q := by
      rcases hf : perms.filter (matchesPair roleId actionId) with _ | ⟨x, xs⟩
      · rw [hf] at hp0mem
        simp at hp0mem
      · rw [hf] at hp0mem hqmem hlen
        have hxs : xs = [] := by
          simp only [List.length_cons] at hlen
          exact List.length_eq_zero.mp (by omega)
        subst hxs
        simp only [List.mem_singleton] at hp0mem hqmem
        rw [hp0mem, hqmem]
    subst hpq
    unfold resolve
    rw [hp0]

theorem C1_resolution_default_deny_and_verbatim_witness :
    resolve [⟨"p1", "r1", "a1", .granted, some 10000, some "manager approval"⟩]
        "r1" "a2" = ⟨.denied, none, none⟩
    ∧ resolve [⟨"p1", "r1", "a1", .granted, some 10000, some "manager approval"⟩]
        "r1" "a1" = ⟨.granted, some 10000, some "manager approval"⟩ := by
  refine ⟨(C1_resolution_default_deny_and_verbatim _ "r1" "a2").1 (by decide), ?_⟩
  exact (C1_resolution_default_deny_and_verbatim _ "r1" "a1").2
    ⟨"p1", "r1", "a1", .granted, some 10000, some "manager approval"⟩
    (by decide) (by decide)
    (atMostOnePerPair_singleton _)

/-- C6: the CSV export iterates the full, unfiltered catalog — for every
roles list, actions list, permission list and every category/search
filter state, the number of emitted data rows (all rows after the
header) is exactly |roles| × |actions|. -/
theorem C6_export_row_count (roles : List Role) (actions : List MatrixAction)
    (perms : List Permission) (selectedCategory searchTerm : String) :
    (exportDataRows roles actions perms selectedCategory searchTerm).length =
      roles.length * actions.length := by
  unfold exportDataRows csvData
  simp only [List.tail_cons]
  induction roles with
  | nil => simp
  | cons r rs ih =>
    simp only [List.flatMap_cons, List.length_append, List.length_map,
      List.length_cons, ih]
    ring

end RoleCraft

namespace RoleCraft

theorem atMostOnePerPair_nil : atMostOnePerPair [] := by
  intro roleId actionId
  simp [pairCount]

/-- C2: `setPermission` (the `updatePermission` upsert) preserves the
at-most-one-row-per-(role_id, action_id) invariant; after one call the
pair has exactly one row, and a second call on the same pair updates that
row rather than inserting a second one, so the pair still has exactly one
row. -/
theorem C2_setPermission_preserves_uniqueness (perms : List Permission)
    (newId1 newId2 roleId actionId : String) (s1 s2 : PermStatus)
    (h : atMostOnePerPair perms) :
    atMostOnePerPair (setPermission perms newId1 roleId actionId s1)
    ∧ pairCount (setPermission perms newId1 roleId actionId s1) roleId actionId = 1
    ∧ pairCount (setPermission (setPermission perms newId1 roleId actionId s1)
        newId2 roleId actionId s2) roleId actionId = 1 := by
  have h1 := setPermission_preserves_atMostOne perms newId1 roleId actionId s1 h
  exact ⟨h1, pairCount_setPermission_self perms newId1 roleId actionId s1 h,
    pairCount_setPermission_self _ newId2 roleId actionId s2 h1⟩

theorem C2_setPermission_preserves_uniqueness_witness :
    atMostOnePerPair (setPermission [] "n1" "r1" "a1" .granted)
    ∧ pairCount (setPermission [] "n1" "r1" "a1" .granted) "r1" "a1" = 1
    ∧ pairCount (setPermission (setPermission [] "n1" "r1" "a1" .granted)
        "n2" "r1" "a1" .conditional) "r1" "a1" = 1 :=
  C2_setPermission_preserves_uniqueness [] "n1" "n2" "r1" "a1"
    .granted .conditional atMostOnePerPair_nil

/-- C4: the cell toggle advances the resolved status through the fixed
cycle denied → granted → conditional → denied; starting from a pair whose
resolved status is denied (including the no-row case), three successive
clicks return the resolved status to denied. -/
theorem C4_toggle_cycle (perms : List Permission)
    (newId1 newId2 newId3 roleId actionId : String)
    (h : resolveStatus perms roleId actionId = .denied) :
    resolveStatus (clickCell perms newId1 roleId actionId) roleId actionId = .granted
    ∧ resolveStatus (clickCell (clickCell perms newId1 roleId actionId)
        newId2 roleId actionId) roleId actionId = .conditional
    ∧ resolveStatus (clickCell (clickCell (clickCell perms newId1 roleId actionId)
        newId2 roleId actionId) newId3 roleId actionId) roleId actionId = .denied := by
  have h1 := resolveStatus_clickCell perms newId1 roleId actionId
  rw [h] at h1
  have h2 := resolveStatus_clickCell (clickCell perms newId1 roleId actionId)
    newId2 roleId actionId
  rw [h1] at h2
  have h3 := resolveStatus_clickCell
    (clickCell (clickCell perms newId1 roleId actionId) newId2 roleId actionId)
    newId3 roleId actionId
  rw [h2] at h3
  exact ⟨h1, h2, h3⟩

theorem C4_toggle_cycle_witness :
    resolveStatus (clickCell [] "n1" "r1" "a1") "r1" "a1" = .granted
    ∧ resolveStatus (clickCell (clickCell [] "n1" "r1" "a1") "n2" "r1" "a1")
        "r1" "a1" = .conditional
    ∧ resolveStatus (clickCell (clickCell (clickCell [] "n1" "r1" "a1")
        "n2" "r1" "a1") "n3" "r1" "a1") "r1" "a1" = .denied :=
  C4_toggle_cycle [] "n1" "n2" "n3" "r1" "a1" (by decide)

/-- C5: the mutator is an update, not a replace — when a row exists for
(role_id, action_id), `setPermission` with only a new status leaves that
row's limit_value and conditions unchanged, so a subsequent `resolve`
returns the new status together with the old limit_value and
conditions. -/
theorem C5_setPermission_update_not_replace (perms : List Permission)
    (newId roleId actionId : String) (s : PermStatus) (p : Permission)
    (h : getPermission perms roleId actionId = some p) :
    resolve (setPermission perms newId roleId actionId s) roleId actionId =
      ⟨s, p.limit_value, p.conditions⟩ := by
  unfold resolve
  rw [getPermission_setPermission_found perms newId roleId actionId s p h]

theorem C5_setPermission_update_not_replace_witness :
    resolve (setPermission
        [⟨"p1", "manager", "approve-expense", .granted, some 10000, none⟩]
        "n2" "manager" "approve-expense" .conditional)
      "manager" "approve-expense" = ⟨.conditional, some 10000, none⟩ :=
  C5_setPermission_update_not_replace
    [⟨"p1", "manager", "approve-expense", .granted, some 10000, none⟩]
    "n2" "manager" "approve-expense" .conditional
    ⟨"p1", "manager", "approve-expense", .granted, some 10000, none⟩
    (by decide)

end RoleCraft

namespace RoleCraft

/-- C3: the gate is fail-closed and exact-match — "Admin" maps to admin,
"Edit & View" maps to edit, any other role name (including the missing
role, which the loader coerces to the empty string) maps to view-only
with both gate booleans false; the permitted-operation sets are nested
Admin ⊇ Edit & View ⊇ anything else. -/
theorem C3_capability_fail_closed :
    capability_of "Admin" = .admin
    ∧ capability_of "Edit & View" = .edit
    ∧ (∀ userRole : String, userRole ≠ "Admin" → userRole ≠ "Edit & View" →
        capability_of userRole = .view
        ∧ is_admin userRole = false ∧ can_edit userRole = false)
    ∧ capability_of (userRoleFromStore none) = .view
    ∧ (∀ (userRole : String) (op : Capability),
        capAllows (capability_of userRole) op = true →
        capAllows (capability_of "Admin") op = true)
    ∧ (∀ (userRole : String) (op : Capability), userRole ≠ "Admin" →
        capAllows (capability_of userRole) op = true →
        capAllows (capability_of "Edit & View") op = true) := by
  have hadm : capability_of "Admin" = .admin := by decide
  have hev : capability_of "Edit & View" = .edit := by decide
  refine ⟨hadm, hev, ?_, by decide, ?_, ?_⟩
  · intro userRole h1 h2
    have ha : is_admin userRole = false := by
      simp [is_admin, h1]
    have hc : can_edit userRole = false := by
      simp [can_edit, h1, h2]
    refine ⟨?_, ha, hc⟩
    unfold capability_of
    rw [ha, hc]
    simp
  · intro userRole op h
    rw [hadm]
    have key : ∀ c op2, capAllows c op2 = true →
        capAllows Capability.admin op2 = true := by
      intro c op2
      cases c <;> cases op2 <;> decide
    exact key _ op h
  · intro userRole op hne h
    rw [hev]
    have hc : capability_of userRole ≠ Capability.admin := by
      unfold capability_of
      have ha : is_admin userRole = false := by simp [is_admin, hne]
      rw [ha]
      cases hce : can_edit userRole <;> simp
    have key : ∀ c op2, c ≠ Capability.admin → capAllows c op2 = true →
        capAllows Capability.edit op2 = true := by
      intro c op2
      cases c <;> cases op2 <;> decide
    exact key _ op hc h

theorem C3_capability_fail_closed_witness :
    capability_of "Manager" = .view
    ∧ is_admin "Manager" = false ∧ can_edit "Manager" = false :=
  C3_capability_fail_closed.2.2.1 "Manager" (by decide) (by decide)

/-- C8: the projection keeps exactly the actions satisfying the
conjunction of the category filter (equality with the selected category,
or the selected category being "all") and the case-insensitive substring
filter on name or description. -/
theorem C8_project_filter_conjunction (actions : List MatrixAction)
    (selectedCategory searchTerm : String) (action : MatrixAction) :
    action ∈ filteredActions actions selectedCategory searchTerm ↔
      action ∈ actions
      ∧ (selectedCategory = "all" ∨ action.category = selectedCategory)
      ∧ (strIncludesCI action.name searchTerm = true
         ∨ strIncludesCI action.description searchTerm = true) := by
  unfold filteredActions
  rw [List.mem_filter]
  simp [Bool.and_eq_true, Bool.or_eq_true, and_assoc]

/-- C9: a rejected store write fails atomically — `updatePermission`
surfaces a failure notice and leaves the locally held catalog exactly as
it was; the local snapshot only changes when the write succeeds and the
subsequent reload returns fresh data, in which case it becomes exactly
that fresh data. -/
theorem C9_failed_write_atomic (st : Catalog) (e : StoreError)
    (writeResult : Except StoreError Unit)
    (reloadResult : Except StoreError Catalog) :
    updatePermissionFlow st (Except.error e) reloadResult = (st, Notice.failure)
    ∧ ((updatePermissionFlow st writeResult reloadResult).1 = st
       ∨ ∃ fresh, writeResult = Except.ok () ∧ reloadResult = Except.ok fresh
           ∧ updatePermissionFlow st writeResult reloadResult
               = (fresh, Notice.success)) := by
  constructor
  · rfl
  · cases writeResult with
    | error e2 => exact Or.inl rfl
    | ok u =>
      cases reloadResult with
      | error e2 => exact Or.inl rfl
      | ok fresh =>
        exact Or.inr ⟨fresh, by cases u; rfl, rfl, by cases u; rfl⟩

end RoleCraft

namespace RoleCraft

/-- The export data row as the claim states it, built from the resolved
triple: {role.name, action.name, status-or-"denied", limit_value-or-empty,
conditions-or-empty, action.category}, reading "limit_value-or-empty" as
the decimal rendering of the limit whenever the resolved row carries one
and the empty string only when it carries none. -/
def specExportRowClaimed (role : Role) (action : MatrixAction) (res : Resolved) :
    List String :=
  [role.name, action.name, res.status.toStr,
   (res.limit_value.map fun n => toString n).getD "",
   res.conditions.getD "",
   action.category]

/-- The amended export data row: identical to the claimed one except that
a limit of exactly 0 also renders as the empty string — the source
computes the field as `limit_value || ''`, and the JS number 0 is falsy. -/
def specExportRowAmended (role : Role) (action : MatrixAction) (res : Resolved) :
    List String :=
  [role.name, action.name, res.status.toStr,
   match res.limit_value with
   | some n => if n = 0 then "" else toString n
   | none => "",
   res.conditions.getD "",
   action.category]

/-- C7 counterexample: a permission row with `limit_value = 0` exports an
empty Limit field, not "0", so the emitted data row differs from the
claimed sextuple, which renders every present limit_value. -/
theorem C7_export_zero_limit_counterexample :
    exportDataRows [⟨"r1", "Manager", "", "#fff", false⟩]
        [⟨"a1", "Approve", "", "Finance"⟩]
        [⟨"p1", "r1", "a1", .granted, some 0, none⟩] "all" ""
      ≠ [specExportRowClaimed ⟨"r1", "Manager", "", "#fff", false⟩
          ⟨"a1", "Approve", "", "Finance"⟩
          (resolve [⟨"p1", "r1", "a1", .granted, some 0, none⟩] "r1" "a1")] := by
  decide

theorem flatMap_map_congr {A B C : Type} (l : List A) (m : List B)
    (f g : A → B → C) (h : ∀ a b, f a b = g a b) :
    (l.flatMap fun a => m.map (f a)) = l.flatMap fun a => m.map (g a) := by
  have hfg : f = g := funext fun a => funext (h a)
  rw [hfg]

theorem exportRow_eq_specAmended (role : Role) (action : MatrixAction)
    (perms : List Permission) :
    exportRow role action (getPermission perms role.id action.id) =
      specExportRowAmended role action (resolve perms role.id action.id) := by
  cases h : getPermission perms role.id action.id with
  | none =>
    unfold exportRow specExportRowAmended resolve
    rw [h]
    rfl
  | some p =>
    unfold exportRow specExportRowAmended resolve
    rw [h]
    unfold statusField limitField conditionsField
    cases hl : p.limit_value with
    | none => cases hc : p.conditions <;> simp [hc]
    | some n =>
      by_cases h0 : n = 0
      · cases hc : p.conditions <;> simp [h0, hc]
      · cases hc : p.conditions <;>
          simp [h0, beq_eq_false_iff_ne.mpr h0, hc]

/-- C7 amended: the emitted CSV is the double-quote-wrapped header
`Role, Action, Status, Limit, Conditions, Category` followed, for every
role × every action of the full catalog, by the double-quote-wrapped
sextuple {role.name, action.name, status-or-"denied",
limit_value-or-empty (also empty when the limit is 0, by JS falsy
coercion), conditions-or-empty, action.category} built from the resolved
permission of the pair. -/
theorem C7_export_row_shape_amended (roles : List Role)
    (actions : List MatrixAction) (perms : List Permission)
    (selectedCategory searchTerm : String) :
    exportToCSV roles actions perms selectedCategory searchTerm =
      String.intercalate "\n"
        ("\"Role\",\"Action\",\"Status\",\"Limit\",\"Conditions\",\"Category\"" ::
          (roles.flatMap fun role =>
            actions.map fun action =>
              String.intercalate ","
                ((specExportRowAmended role action
                    (resolve perms role.id action.id)).map
                  fun field => "\"" ++ field ++ "\""))) := by
  unfold exportToCSV csvContent csvData
  simp only [List.map_cons, List.map_flatMap, List.map_map]
  congr 1
  congr 1
  exact flatMap_map_congr roles actions _ _ fun role action => by
    simp only [Function.comp]
    rw [exportRow_eq_specAmended]

end RoleCraft
